import Mathlib

/-!
Shallow embedding of the stellar-smart-mcp tool pipeline.

Sources embedded here:
 - src/unnamed/part_000 : the MyMCP agent (tool-name derivation, tool
   synthesis loop over tracked contracts, synthesized contract-function
   handler with its read/mutation branch and try/catch, and the fixed
   tools setContractAddress / getContractAddresses / removeContractAddress /
   setWallet / getWallet / deployToken);
 - src/unnamed/part_001 : deployNewFungiblePausableToken;
 - src/src/store-do.ts : StellarMCPStore (SQLite-backed per-user store).

External collaborators (the Stellar SDK's AssembledTransaction, the
passkey-kit signer, the launchtube relay, the xdr-json decoder and the
SQL engine) are modelled by the interfaces the spec gives them in
sections 4 and 6: their outcomes are inputs to the embedded handlers,
and the strings they render are kept as symbolic constructors.
-/

namespace StellarMCP

/-! ## Tool-name derivation (src/unnamed/part_000, lines 81-83) -/

/-- Characters kept by the sanitizer regex [^a-zA-Z0-9_-] in
"toolName.replace(/[^a-zA-Z0-9_-]/g, underscore)". -/
def isAllowedChar (c : Char) : Bool :=
  ('a' ≤ c && c ≤ 'z') || ('A' ≤ c && c ≤ 'Z') || ('0' ≤ c && c ≤ '9') || c = '_' || c = '-'

/-- One character of the global sanitizing replace: disallowed characters
become an underscore. -/
def sanitizeChar (c : Char) : Char :=
  if isAllowedChar c then c else '_'

/-- JavaScript "s.replace(String, String)" with a string pattern replaces only
the FIRST occurrence: the first double underscore collapses to a single one,
later ones are kept. -/
def collapseFirstDoubleUnderscore : List Char → List Char
  | [] => []
  | [c] => [c]
  | a :: b :: rest =>
    if a = '_' ∧ b = '_' then a :: rest
    else a :: collapseFirstDoubleUnderscore (b :: rest)

/-- Tool id derivation from src/unnamed/part_000 lines 81-83:
build "contractName: funcName", replace every disallowed character by an
underscore, take the first 64 characters, then collapse the first double
underscore. -/
def deriveToolName (contractName funcName : String) : String :=
  String.mk (collapseFirstDoubleUnderscore
    (((contractName ++ ": " ++ funcName).data.map sanitizeChar).take 64))

/-- JavaScript "name.includes(two underscores)": the string contains two
consecutive underscores somewhere. -/
def hasDoubleUnderscore : List Char → Bool
  | [] => false
  | [_] => false
  | a :: b :: rest => (a = '_' && b = '_') || hasDoubleUnderscore (b :: rest)

/-! ## The per-user store (src/src/store-do.ts)

The two SQLite tables are modelled as row lists in insertion (rowid)
order.  Addresses passed through "new Address(x).toString()" are assumed
already canonical (the SDK round-trips canonical strkeys unchanged); the
SDK call itself is external validation.  "Keypair.random().secret()" is an
external entropy source, modelled as the freshSk argument of setAddress. -/

/-- One row of the addresses table: login STRING PRIMARY KEY, address, sk. -/
structure WalletRow where
  login : String
  address : String
  sk : String
deriving DecidableEq, Repr

/-- One row of the contracts table: login, name, address, UNIQUE (login, address). -/
structure ContractRow where
  login : String
  name : String
  address : String
deriving DecidableEq, Repr

/-- The state of the StellarMCPStore durable object. -/
structure Store where
  addresses : List WalletRow
  contracts : List ContractRow
deriving DecidableEq, Repr

/-- SELECT the (unique, since login is the primary key) addresses row for a login. -/
def findAddress (s : Store) (login : String) : Option WalletRow :=
  s.addresses.find? (fun r => r.login == login)

/-- StellarMCPStore.setAddress: INSERT OR IGNORE INTO addresses with login the
primary key — inserts only when no row for the login exists; freshSk models the
locally generated "Keypair.random().secret()". -/
def setAddress (s : Store) (login wallet freshSk : String) : Store :=
  match findAddress s login with
  | some _ => s
  | none => { s with addresses := s.addresses ++ [⟨login, wallet, freshSk⟩] }

/-- An exception thrown out of the store: "SqlStorage.Cursor.one()" throws when
the query does not return exactly one row (the missing-wallet throw). -/
inductive ThrownErr
  | storeRowMissing
  | simFailed
  | signFailed
  | sendFailed
deriving DecidableEq, Repr

/-- StellarMCPStore.getAddress: "SELECT address, sk FROM addresses WHERE
login = ?1" followed by ".one()", which THROWS when no row exists; on success
the method returns the two-element array [address, sk]. -/
def getAddress (s : Store) (login : String) : Except ThrownErr (String × String) :=
  match findAddress s login with
  | some r => .ok (r.address, r.sk)
  | none => .error .storeRowMissing

/-- StellarMCPStore.addContract: INSERT OR IGNORE INTO contracts with
UNIQUE (login, address) — inserts only when no row with this login and
address exists. -/
def addContract (s : Store) (login name address : String) : Store :=
  match s.contracts.find? (fun r => r.login == login && r.address == address) with
  | some _ => s
  | none => { s with contracts := s.contracts ++ [⟨login, name, address⟩] }

/-- StellarMCPStore.removeContract: DELETE FROM contracts WHERE login AND address match. -/
def removeContract (s : Store) (login address : String) : Store :=
  { s with contracts := s.contracts.filter (fun r => !(r.login == login && r.address == address)) }

/-- StellarMCPStore.getContracts: SELECT name, address FROM contracts WHERE
login = ?1, returned as [name, address] pairs in rowid order. -/
def getContracts (s : Store) (login : String) : List (String × String) :=
  (s.contracts.filter (fun r => r.login == login)).map (fun r => (r.name, r.address))

/-! ## Tool synthesis at session init (src/unnamed/part_000, lines 41-150) -/

/-- One decoded contract-spec function: name, doc, and (name, doc) of each input. -/
structure FuncDecl where
  name : String
  doc : String
  inputs : List (String × String)
deriving DecidableEq, Repr

/-- A tool registered on the MCP server, keyed by its derived id and bound to
the contract id and function name of its handler closure. -/
structure RegisteredTool where
  id : String
  contractId : String
  funcName : String
deriving DecidableEq, Repr

/-- The inner loop over contract.spec.funcs(): skip any function whose name
includes a double underscore (the constructor marker), otherwise register a
tool under the derived tool name, bound to (contractId, funcName). -/
def registerContractTools (contractName contractId : String) (funcs : List FuncDecl) :
    List RegisteredTool :=
  (funcs.filter (fun f => !hasDoubleUnderscore f.name.data)).map
    (fun f => ⟨deriveToolName contractName f.name, contractId, f.name⟩)

/-- The body of MyMCP.init's loop over the tracked-contract list.  Only the
wasm fetch "rpc.getContractWasmByContractId" sits inside
"try ... catch { continue }": a fetch failure skips the contract and the loop
moves on.  "Client.fromWasm" (the descriptor decode, modelled by fromWasm) is
OUTSIDE that try/catch, so a decode failure is an uncaught exception that
aborts the whole init — no further contract is processed and an .error
result means no tools at all are registered. -/
def initLoop (fetchWasm : String → Except Unit String)
    (fromWasm : String → Except Unit (List FuncDecl)) :
    List (String × String) → Except Unit (List RegisteredTool)
  | [] => .ok []
  | (cname, cid) :: rest =>
    match fetchWasm cid with
    | .error _ => initLoop fetchWasm fromWasm rest
    | .ok wasm =>
      match fromWasm wasm with
      | .error e => .error e
      | .ok funcs =>
        match initLoop fetchWasm fromWasm rest with
        | .error e => .error e
        | .ok ts => .ok (registerContractTools cname cid funcs ++ ts)

/-- MyMCP.init's synthesized-tool registration: run the loop over the user's
tracked contracts.  An .error outcome is the uncaught decode exception
escaping init, leaving the session with no registered tools. -/
def initTools (s : Store) (login : String)
    (fetchWasm : String → Except Unit String)
    (fromWasm : String → Except Unit (List FuncDecl)) :
    Except Unit (List RegisteredTool) :=
  initLoop fetchWasm fromWasm (getContracts s login)

/-! ## The synthesized tool handler (src/unnamed/part_000, lines 89-147) -/

/-- The text items a handler can put in its single content entry.  Each
constructor records one string the source builds (template literals and
JSON.stringify renderings are kept symbolic — their exact serialization is the
JS runtime's). -/
inductive EnvelopeText
  | noWalletSet
  | walletIs (address : String)
  | walletSetTo (address : String)
  | reloadSuccess
  | contractAdded (address sk : String)
  | contractList (entries : List (String × String))
  | decoded (retvalXdr : String)
  | resultSuccess (retvalXdr res : String)
  | deployResult (res contractId : String)
  | errJson (e : ThrownErr)
deriving DecidableEq, Repr

/-- The MCP response envelope: content is the list of text items (every
handler in the source returns exactly one). -/
structure Envelope where
  content : List EnvelopeText
deriving DecidableEq, Repr

/-- Network interactions of one synthesized tool invocation. -/
inductive NetCall
  | simulate
  | signWallet
  | send
deriving DecidableEq, Repr

/-- What the simulation performed inside AssembledTransaction.buildWithOp
reports: the projected return value (XDR) and the parties other than the
invoking account that must authorize ("needsNonInvokerSigningBy"). -/
structure SimOutcome where
  retvalXdr : String
  nonInvokerAuth : List String
deriving DecidableEq, Repr

/-- Modelled from the spec (section 4.3): the external SDK's
"AssembledTransaction.isReadCall" classifier — the call is a read when the
simulation indicates no party other than the invoking account must
authorize. The SDK itself is an out-of-scope collaborator (spec section 1). -/
def isReadCall (sim : SimOutcome) : Bool :=
  sim.nonInvokerAuth.isEmpty

/-- Outcomes of the external steps of one synthesized tool invocation:
the simulation performed by buildWithOp, the passkey-kit wallet.sign call,
and the launchtube relay server.send call. -/
structure InvokeEnv where
  sim : Except Unit SimOutcome
  sign : Except Unit Unit
  send : Except Unit String

/-- The body of the synthesized handler's try block, with its trace of network
calls: buildWithOp simulates; decode the projected retval; if isReadCall return
it at once; otherwise resolve the wallet from the store (getAddress throws when
absent), sign with the stored secret, and submit through the relay.  An .error
result is an exception reaching the end of the try block. -/
def invokeCore (store : Store) (login : String) (env : InvokeEnv) :
    Except ThrownErr Envelope × List NetCall :=
  match env.sim with
  | .error _ => (.error .simFailed, [.simulate])
  | .ok sim =>
    if isReadCall sim then
      (.ok ⟨[.decoded sim.retvalXdr]⟩, [.simulate])
    else
      match getAddress store login with
      | .error e => (.error e, [.simulate])
      | .ok _ =>
        match env.sign with
        | .error _ => (.error .signFailed, [.simulate, .signWallet])
        | .ok _ =>
          match env.send with
          | .error _ => (.error .sendFailed, [.simulate, .signWallet, .send])
          | .ok res => (.ok ⟨[.resultSuccess sim.retvalXdr res]⟩, [.simulate, .signWallet, .send])

/-- The synthesized handler: the try/catch at the handler boundary turns any
exception from the body into the JSON.stringify(err) error envelope. -/
def invokeHandler (store : Store) (login : String) (env : InvokeEnv) :
    Envelope × List NetCall :=
  match invokeCore store login env with
  | (.ok e, t) => (e, t)
  | (.error err, t) => (⟨[.errJson err]⟩, t)

/-! ## Fixed tools (src/unnamed/part_000, lines 159-306) -/

/-- JS truthiness of the value stub.getAddress resolves to: a two-element
array object, which is always truthy (so "if (!address_sk)" can never take
its then-branch once getAddress has returned). -/
def jsTruthyPair (_p : String × String) : Bool :=
  true

/-- The getWallet handler (lines 239-257).  No try/catch: the store's
missing-row throw from getAddress propagates out (an .error result).  On
success the source tests "address_sk.length" — the length of the returned
two-element array — to pick the branch. -/
def getWalletHandler (store : Store) (login : String) : Except ThrownErr Envelope :=
  match getAddress store login with
  | .error e => .error e
  | .ok p =>
    if [p.1, p.2].length ≠ 0 then
      .ok ⟨[.walletIs p.1]⟩
    else
      .ok ⟨[.noWalletSet]⟩

/-- The setContractAddress handler (lines 159-190).  No try/catch: the store's
missing-row throw from getAddress propagates out.  On success the source
tests "!address_sk" (always false for the returned array), then inserts the
contract and answers with the success/link payload. -/
def setContractAddressHandler (store : Store) (login name address : String) :
    Except ThrownErr (Envelope × Store) :=
  match getAddress store login with
  | .error e => .error e
  | .ok p =>
    if jsTruthyPair p then
      .ok (⟨[.contractAdded address p.2]⟩, addContract store login name address)
    else
      .ok (⟨[.noWalletSet]⟩, store)

/-- The getContractAddresses handler (lines 193-204): list the user's tracked
contracts.  No try/catch. -/
def getContractAddressesHandler (store : Store) (login : String) : Envelope :=
  ⟨[.contractList (getContracts store login)]⟩

/-- The removeContractAddress handler (lines 207-220).  No try/catch. -/
def removeContractAddressHandler (store : Store) (login address : String) :
    Envelope × Store :=
  (⟨[.reloadSuccess]⟩, removeContract store login address)

/-- The setWallet handler (lines 223-236): the tool only accepts the wallet
address; the signing secret stored beside it is the locally generated
freshSecret, never a caller input.  No try/catch. -/
def setWalletHandler (store : Store) (login walletParam freshSecret : String) :
    Envelope × Store :=
  (⟨[.walletSetTo walletParam]⟩, setAddress store login walletParam freshSecret)

/-! ## Token deployment (src/unnamed/part_001 and part_000 lines 260-306) -/

/-- The record handed to Client.deploy: the fungible-pausable constructor
arguments. -/
structure DeployArgs where
  owner : String
  name : String
  symbol : String
  decimals : Nat
  initial_supply : Int
  cap : Int
deriving DecidableEq, Repr

/-- The argument record deployNewFungiblePausableToken builds for
Client.deploy: decimals is fixed to 0 by the source. -/
def deployRequest (owner name symbol : String) (initial_supply cap : Int) : DeployArgs :=
  ⟨owner, name, symbol, 0, initial_supply, cap⟩

/-- Network interactions of the deployment flow. -/
inductive DeployCall
  | simulateDeploy
  | signAuthEntries
  | sendTx
deriving DecidableEq, Repr

/-- Outcomes of the deployment flow's external steps: Client.deploy (its
simulation yields the new contract id in the projected retval),
at.signAuthEntries with the process keypair, and the relay server.send. -/
structure DeployEnv where
  deploy : DeployArgs → Except Unit String
  signAuth : Except Unit Unit
  send : Except Unit String

/-- deployNewFungiblePausableToken (src/unnamed/part_001): build the deploy
transaction for the six-field constructor record (decimals fixed to 0), always
sign the auth entries with the deployer keypair, always submit through the
relay, and return the relay outcome together with the contract id read back
from the deploy simulation's return value. -/
def deployNewFungiblePausableToken (ext : DeployEnv) (owner name symbol : String)
    (initial_supply cap : Int) : Except ThrownErr (String × String) × List DeployCall :=
  match ext.deploy (deployRequest owner name symbol initial_supply cap) with
  | .error _ => (.error .simFailed, [.simulateDeploy])
  | .ok newContractId =>
    match ext.signAuth with
    | .error _ => (.error .signFailed, [.simulateDeploy, .signAuthEntries])
    | .ok _ =>
      match ext.send with
      | .error _ => (.error .sendFailed, [.simulateDeploy, .signAuthEntries, .sendTx])
      | .ok res => (.ok (res, newContractId), [.simulateDeploy, .signAuthEntries, .sendTx])

/-- The deployToken handler (lines 260-306).  Unlike the other fixed tools it
HAS a try/catch: the store's missing-row throw and any deployment failure are
caught and rendered as the error envelope; on success it returns the
stringified deployment result (relay outcome plus new contract id). -/
def deployTokenHandler (store : Store) (login : String) (ext : DeployEnv)
    (name symbol : String) (initial_supply cap : Int) : Envelope × List DeployCall :=
  match getAddress store login with
  | .error e => (⟨[.errJson e]⟩, [])
  | .ok p =>
    if jsTruthyPair p then
      match deployNewFungiblePausableToken ext p.1 name symbol initial_supply cap with
      | (.error e, t) => (⟨[.errJson e]⟩, t)
      | (.ok (res, cid), t) => (⟨[.deployResult res cid]⟩, t)
    else
      (⟨[.noWalletSet]⟩, [])

/-! ## Helper lemmas -/

theorem find?_append_of_none {α : Type} (p : α → Bool) (l₁ l₂ : List α)
    (h : l₁.find? p = none) : (l₁ ++ l₂).find? p = l₂.find? p := by
  induction l₁ with
  | nil => rfl
  | cons a l ih =>
    cases hpa : p a with
    | true => rw [List.find?_cons_of_pos _ hpa] at h; exact absurd h (by simp)
    | false =>
      have hpa' : ¬p a = true := by simp [hpa]
      rw [List.find?_cons_of_neg _ hpa'] at h
      rw [List.cons_append, List.find?_cons_of_neg _ hpa']
      exact ih h

theorem collapse_length_le (l : List Char) :
    (collapseFirstDoubleUnderscore l).length ≤ l.length := by
  induction l with
  | nil => simp [collapseFirstDoubleUnderscore]
  | cons a l ih =>
    cases l with
    | nil => simp [collapseFirstDoubleUnderscore]
    | cons b rest =>
      by_cases h : a = '_' ∧ b = '_'
      · simp [collapseFirstDoubleUnderscore, h]
      · simp only [collapseFirstDoubleUnderscore, if_neg h, List.length_cons]
        exact Nat.succ_le_succ ih

theorem mem_collapse (c : Char) (l : List Char)
    (h : c ∈ collapseFirstDoubleUnderscore l) : c ∈ l := by
  induction l with
  | nil => simp [collapseFirstDoubleUnderscore] at h
  | cons a l ih =>
    cases l with
    | nil => simpa [collapseFirstDoubleUnderscore] using h
    | cons b rest =>
      by_cases hab : a = '_' ∧ b = '_'
      · simp only [collapseFirstDoubleUnderscore, if_pos hab, List.mem_cons] at h
        rcases h with h | h
        · simp [h]
        · simp [List.mem_cons, h]
      · simp only [collapseFirstDoubleUnderscore, if_neg hab, List.mem_cons] at h
        rcases h with h | h
        · simp [h]
        · exact List.mem_cons.mpr (Or.inr (ih h))

theorem sanitizeChar_allowed (c : Char) : isAllowedChar (sanitizeChar c) = true := by
  unfold sanitizeChar
  by_cases h : isAllowedChar c = true
  · simp [h]
  · simp [h]; decide

theorem find?_addContract (s : Store) (u n a : String) :
    ∃ r, (addContract s u n a).contracts.find?
      (fun x => x.login == u && x.address == a) = some r := by
  unfold addContract
  cases hf : s.contracts.find? (fun x => x.login == u && x.address == a) with
  | some r => exact ⟨r, by simp only [hf]⟩
  | none =>
    have key : (s.contracts ++ [(⟨u, n, a⟩ : ContractRow)]).find?
        (fun x => x.login == u && x.address == a) = some ⟨u, n, a⟩ := by
      rw [find?_append_of_none _ _ _ hf]
      simp [List.find?]
    exact ⟨⟨u, n, a⟩, by simp only [hf]; exact key⟩

theorem addContract_second (s : Store) (u n a : String) :
    addContract (addContract s u n a) u n a = addContract s u n a := by
  obtain ⟨r, hr⟩ := find?_addContract s u n a
  generalize hS : addContract s u n a = S at hr ⊢
  unfold addContract
  rw [hr]

/-! ## Claim theorems -/

/-- C6: setWallet has insert-if-absent semantics: when no wallet row exists
for the user, the call appends exactly one row carrying the locally generated
signing secret; once a row exists, every further setWallet call for the same
user is a no-op, leaving address and secret unchanged. -/
theorem setWallet_insertIfAbsent (s : Store) (login w sk : String)
    (habs : findAddress s login = none) :
    setAddress s login w sk = { s with addresses := s.addresses ++ [⟨login, w, sk⟩] } ∧
    ∀ w' sk', setAddress (setAddress s login w sk) login w' sk' =
      setAddress s login w sk := by
  have hfind : s.addresses.find? (fun r => r.login == login) = none := habs
  have h1 : setAddress s login w sk =
      { s with addresses := s.addresses ++ [⟨login, w, sk⟩] } := by
    unfold setAddress; rw [habs]
  refine ⟨h1, fun w' sk' => ?_⟩
  rw [h1]
  unfold setAddress findAddress
  rw [show ({ s with addresses := s.addresses ++ [⟨login, w, sk⟩] } : Store).addresses
        = s.addresses ++ [⟨login, w, sk⟩] from rfl,
      find?_append_of_none _ _ _ hfind]
  simp [List.find?]

theorem setWallet_insertIfAbsent_witness :
    findAddress ⟨[], []⟩ "u1" = none ∧
    setAddress ⟨[], []⟩ "u1" "CWALLET" "SECRET1" = ⟨[⟨"u1", "CWALLET", "SECRET1"⟩], []⟩ ∧
    setAddress (setAddress ⟨[], []⟩ "u1" "CWALLET" "SECRET1") "u1" "COTHER" "SECRET2" =
      setAddress ⟨[], []⟩ "u1" "CWALLET" "SECRET1" := by
  have h := setWallet_insertIfAbsent ⟨[], []⟩ "u1" "CWALLET" "SECRET1" rfl
  exact ⟨rfl, h.1, h.2 "COTHER" "SECRET2"⟩

/-- C7: addTrackedContract is insert-if-absent on (user, address): adding to
an empty registry yields exactly the one entry (name, address) when listed,
and a second identical add leaves the store unchanged (idempotent). -/
theorem addTrackedContract_idempotent (s : Store) (u n a : String)
    (hempty : s.contracts = []) :
    getContracts (addContract s u n a) u = [(n, a)] ∧
    addContract (addContract s u n a) u n a = addContract s u n a := by
  constructor
  · unfold addContract
    rw [hempty]
    simp [getContracts, List.find?]
  · exact addContract_second s u n a

theorem addTrackedContract_idempotent_witness :
    (Store.contracts ⟨[], []⟩ = []) ∧
    getContracts (addContract ⟨[], []⟩ "u1" "Token" "CABC") "u1" = [("Token", "CABC")] ∧
    addContract (addContract ⟨[], []⟩ "u1" "Token" "CABC") "u1" "Token" "CABC" =
      addContract ⟨[], []⟩ "u1" "Token" "CABC" := by
  have h := addTrackedContract_idempotent ⟨[], []⟩ "u1" "Token" "CABC" rfl
  exact ⟨rfl, h.1, h.2⟩

/-- C8: tool id derivation is a deterministic pure function of
(contractName, functionName): equal inputs give equal ids, the id is exactly
the sanitize-then-truncate-then-collapse pipeline applied to
"contractName: functionName", it is at most 64 characters long, and every
character of it lies in the alphanumeric/underscore/hyphen set. -/
theorem toolName_deterministic (c f c' f' : String) (hc : c = c') (hf : f = f') :
    deriveToolName c f = deriveToolName c' f' ∧
    deriveToolName c f = String.mk (collapseFirstDoubleUnderscore
      (((c ++ ": " ++ f).data.map sanitizeChar).take 64)) ∧
    (deriveToolName c f).length ≤ 64 ∧
    ∀ ch ∈ (deriveToolName c f).data, isAllowedChar ch = true := by
  subst hc; subst hf
  refine ⟨rfl, rfl, ?_, ?_⟩
  · show (String.mk _).length ≤ 64
    have h1 := collapse_length_le (((c ++ ": " ++ f).data.map sanitizeChar).take 64)
    have h2 : (((c ++ ": " ++ f).data.map sanitizeChar).take 64).length ≤ 64 := by
      simp [List.length_take]
    calc (String.mk (collapseFirstDoubleUnderscore
          (((c ++ ": " ++ f).data.map sanitizeChar).take 64))).length
        = (collapseFirstDoubleUnderscore
            (((c ++ ": " ++ f).data.map sanitizeChar).take 64)).length := rfl
      _ ≤ _ := Nat.le_trans h1 h2
  · intro ch hch
    have h1 : ch ∈ ((c ++ ": " ++ f).data.map sanitizeChar).take 64 :=
      mem_collapse ch _ hch
    have h2 : ch ∈ (c ++ ": " ++ f).data.map sanitizeChar :=
      List.mem_of_mem_take h1
    obtain ⟨x, _, hx⟩ := List.mem_map.mp h2
    rw [← hx]
    exact sanitizeChar_allowed x

theorem toolName_deterministic_witness :
    deriveToolName "My Token" "transfer__from" =
      deriveToolName "My Token" "transfer__from" ∧
    (deriveToolName "My Token" "transfer__from").length ≤ 64 ∧
    deriveToolName "My Token" "transfer__from" = "My_Token_transfer__from" := by
  have h := toolName_deterministic "My Token" "transfer__from" "My Token" "transfer__from"
    rfl rfl
  exact ⟨h.1, h.2.2.1, by decide⟩

/-- C9: no tool is synthesized for a function whose name contains the
double-underscore constructor marker: every registered tool's bound function
name is free of the marker, so none of them is the marked function's tool. -/
theorem constructorMarker_excluded (cn cid : String) (funcs : List FuncDecl)
    (f : FuncDecl) (_hf : f ∈ funcs)
    (hmark : hasDoubleUnderscore f.name.data = true) :
    ∀ t ∈ registerContractTools cn cid funcs,
      hasDoubleUnderscore t.funcName.data = false ∧ t.funcName ≠ f.name := by
  intro t ht
  unfold registerContractTools at ht
  obtain ⟨g, hg, hgt⟩ := List.mem_map.mp ht
  have hgkeep : (!hasDoubleUnderscore g.name.data) = true := (List.mem_filter.mp hg).2
  have hgfalse : hasDoubleUnderscore g.name.data = false := by
    simpa using hgkeep
  have hfn : t.funcName = g.name := by rw [← hgt]
  constructor
  · rw [hfn]; exact hgfalse
  · rw [hfn]
    intro heq
    rw [heq] at hgfalse
    rw [hmark] at hgfalse
    exact Bool.noConfusion hgfalse

theorem constructorMarker_excluded_witness :
    (⟨"__constructor", "", []⟩ : FuncDecl) ∈
      [(⟨"__constructor", "", []⟩ : FuncDecl), ⟨"balance", "d", [("account", "a")]⟩] ∧
    hasDoubleUnderscore (String.data "__constructor") = true ∧
    registerContractTools "Token" "C1"
      [⟨"__constructor", "", []⟩, ⟨"balance", "d", [("account", "a")]⟩] =
      [⟨"Token_balance", "C1", "balance"⟩] ∧
    (⟨"Token_balance", "C1", "balance"⟩ : RegisteredTool).funcName ≠ "__constructor" := by
  refine ⟨by decide, by decide, by decide, ?_⟩
  exact (constructorMarker_excluded "Token" "C1"
    [⟨"__constructor", "", []⟩, ⟨"balance", "d", [("account", "a")]⟩]
    ⟨"__constructor", "", []⟩ (by decide) (by decide)
    ⟨"Token_balance", "C1", "balance"⟩ (by decide)).2

/-- A wasm-fetch oracle: CBAD's descriptor fetch fails, CGOOD fetches a
well-formed blob, CUGLY fetches a blob that will not decode. -/
def witnessFetchWasm (cid : String) : Except Unit String :=
  if cid == "CBAD" then .error ()
  else if cid == "CGOOD" then .ok "WASM_GOOD"
  else .ok "WASM_UGLY"

/-- A descriptor decoder: the well-formed blob decodes to a single balance
function, anything else makes Client.fromWasm throw. -/
def witnessFromWasm (wasm : String) : Except Unit (List FuncDecl) :=
  if wasm == "WASM_GOOD" then .ok [⟨"balance", "doc", [("account", "the account")]⟩]
  else .error ()

/-- User u1 tracks CBAD (fetch fails) and the healthy CGOOD. -/
def storeFetchBroken : Store :=
  ⟨[], [⟨"u1", "Broken", "CBAD"⟩, ⟨"u1", "Token", "CGOOD"⟩]⟩

/-- User u1 tracks CUGLY (fetches but does not decode) and the healthy CGOOD. -/
def storeDecodeBroken : Store :=
  ⟨[], [⟨"u1", "Ugly", "CUGLY"⟩, ⟨"u1", "Token", "CGOOD"⟩]⟩

/-- C4: evaluation of the init loop at the failing input.  A contract whose
wasm FETCH fails is skipped as the spec demands — with CBAD broken, CGOOD's
tool is still registered.  But a contract whose wasm fetches and then fails
to DECODE throws outside the try/catch: with CUGLY broken, init aborts with
the uncaught exception and registers no tools at all, so the healthy CGOOD
loses its tools — one broken contract does abort the whole session's tool
registration, against the spec's skip requirement. -/
theorem decodeFailure_aborts_init :
    witnessFetchWasm "CBAD" = .error () ∧
    initTools storeFetchBroken "u1" witnessFetchWasm witnessFromWasm =
      .ok [⟨"Token_balance", "CGOOD", "balance"⟩] ∧
    witnessFetchWasm "CUGLY" = .ok "WASM_UGLY" ∧
    witnessFromWasm "WASM_UGLY" = .error () ∧
    initTools storeDecodeBroken "u1" witnessFetchWasm witnessFromWasm = .error () := by
  exact ⟨rfl, rfl, rfl, rfl, rfl⟩

/-- C1: a synthesized call is classified Read exactly when the simulation
reports no party other than the invoking account must authorize; a Read call
returns the decoded projected return value at once and its network trace is
the lone simulation — no submission call is ever made. -/
theorem readCall_classification (store : Store) (login : String) (env : InvokeEnv)
    (sim : SimOutcome) (hsim : env.sim = .ok sim) :
    (isReadCall sim = true ↔ sim.nonInvokerAuth = []) ∧
    (isReadCall sim = true →
      invokeHandler store login env = (⟨[.decoded sim.retvalXdr]⟩, [.simulate]) ∧
      NetCall.send ∉ (invokeHandler store login env).2) := by
  have hiff : isReadCall sim = true ↔ sim.nonInvokerAuth = [] := by
    unfold isReadCall
    simp [List.isEmpty_iff]
  refine ⟨hiff, fun hread => ?_⟩
  have h1 : invokeHandler store login env = (⟨[.decoded sim.retvalXdr]⟩, [.simulate]) := by
    unfold invokeHandler invokeCore
    rw [hsim]
    simp [hread]
  refine ⟨h1, ?_⟩
  rw [h1]
  simp

/-- An invocation environment whose simulation reports no required
non-invoker authorizations (a read). -/
def witnessReadEnv : InvokeEnv :=
  ⟨.ok ⟨"AAAA", []⟩, .ok (), .ok "sent"⟩

theorem readCall_classification_witness :
    witnessReadEnv.sim = .ok ⟨"AAAA", []⟩ ∧
    invokeHandler ⟨[], []⟩ "u1" witnessReadEnv = (⟨[.decoded "AAAA"]⟩, [.simulate]) ∧
    NetCall.send ∉ (invokeHandler ⟨[], []⟩ "u1" witnessReadEnv).2 := by
  have h := (readCall_classification ⟨[], []⟩ "u1" witnessReadEnv ⟨"AAAA", []⟩ rfl).2 rfl
  exact ⟨rfl, h.1, h.2⟩

/-- C3: a call classified Mutation invoked by a user with no stored wallet row
ends in the missing-wallet error envelope, and the only network interaction in
its trace is the simulation that classified it — neither the signing step nor
the relay submission is ever reached. -/
theorem mutation_noWallet_shortCircuit (store : Store) (login : String)
    (env : InvokeEnv) (sim : SimOutcome) (hsim : env.sim = .ok sim)
    (hmut : isReadCall sim = false) (hnow : findAddress store login = none) :
    invokeHandler store login env = (⟨[.errJson .storeRowMissing]⟩, [.simulate]) ∧
    NetCall.send ∉ (invokeHandler store login env).2 ∧
    NetCall.signWallet ∉ (invokeHandler store login env).2 := by
  have hga : getAddress store login = .error .storeRowMissing := by
    unfold getAddress; rw [hnow]
  have h1 : invokeHandler store login env = (⟨[.errJson .storeRowMissing]⟩, [.simulate]) := by
    unfold invokeHandler invokeCore
    rw [hsim]
    simp [hmut, hga]
  refine ⟨h1, ?_, ?_⟩ <;> rw [h1] <;> simp

/-- An invocation environment whose simulation requires another party's
authorization (a mutation). -/
def witnessMutEnv : InvokeEnv :=
  ⟨.ok ⟨"BBBB", ["GOTHER"]⟩, .ok (), .ok "sent"⟩

theorem mutation_noWallet_witness :
    witnessMutEnv.sim = .ok ⟨"BBBB", ["GOTHER"]⟩ ∧
    findAddress ⟨[], []⟩ "u1" = none ∧
    invokeHandler ⟨[], []⟩ "u1" witnessMutEnv = (⟨[.errJson .storeRowMissing]⟩, [.simulate]) ∧
    NetCall.send ∉ (invokeHandler ⟨[], []⟩ "u1" witnessMutEnv).2 := by
  have h := mutation_noWallet_shortCircuit ⟨[], []⟩ "u1" witnessMutEnv
    ⟨"BBBB", ["GOTHER"]⟩ rfl rfl rfl
  exact ⟨rfl, rfl, h.1, h.2.1⟩

/-- C2 counterexample: invoking getWallet with no stored wallet row makes the
store's row lookup throw, and the getWallet handler has no try/catch, so the
exception propagates uncaught instead of becoming an error envelope. -/
theorem uncaughtException_getWallet :
    getWalletHandler ⟨[], []⟩ "u1" = .error .storeRowMissing := rfl

/-- C2 (amended): for EVERY store, user and external outcome — wallet present
or not, simulation, signing or relay submission failing or not — a synthesized
contract tool invocation and a deployToken invocation each produce exactly one
envelope, and any exception reaching the end of the synthesized handler's try
body is converted to the JSON error envelope with the network trace preserved;
whereas the fixed tools without a try/catch, getWallet and setContractAddress
among them, let the store's missing-wallet throw propagate uncaught. -/
theorem envelope_boundary (store : Store) (login : String) (env : InvokeEnv)
    (ext : DeployEnv) (cname caddr tname tsym : String) (isup icap : Int) :
    (invokeHandler store login env).1.content.length = 1 ∧
    (∀ e t, invokeCore store login env = (.error e, t) →
      invokeHandler store login env = (⟨[.errJson e]⟩, t)) ∧
    (deployTokenHandler store login ext tname tsym isup icap).1.content.length = 1 ∧
    (findAddress store login = none →
      getWalletHandler store login = .error .storeRowMissing ∧
      setContractAddressHandler store login cname caddr = .error .storeRowMissing) := by
  refine ⟨?_, ?_, ?_, fun hnow => ?_⟩
  · unfold invokeHandler invokeCore
    cases henv : env.sim with
    | error e => simp
    | ok sim =>
      by_cases hr : isReadCall sim = true
      · simp [hr]
      · simp only [Bool.not_eq_true] at hr
        simp only [hr, Bool.false_eq_true, if_false]
        cases hg : getAddress store login with
        | error e => simp
        | ok p =>
          cases hsg : env.sign with
          | error e => simp
          | ok u =>
            cases hsd : env.send with
            | error e => simp
            | ok r => simp
  · intro e t h
    unfold invokeHandler
    rw [h]
  · unfold deployTokenHandler
    cases hg : getAddress store login with
    | error e => simp
    | ok p =>
      simp only [jsTruthyPair, if_true]
      unfold deployNewFungiblePausableToken
      cases hd : ext.deploy (deployRequest p.1 tname tsym isup icap) with
      | error e => simp
      | ok nid =>
        cases hs : ext.signAuth with
        | error e => simp
        | ok u =>
          cases hsd : ext.send with
          | error e => simp
          | ok r => simp
  · have hga : getAddress store login = .error .storeRowMissing := by
      unfold getAddress; rw [hnow]
    constructor
    · unfold getWalletHandler; rw [hga]
    · unfold setContractAddressHandler; rw [hga]

/-- An invocation environment whose mutation call reaches the signing step
and fails there. -/
def witnessSignFailEnv : InvokeEnv :=
  ⟨.ok ⟨"BBBB", ["GOTHER"]⟩, .error (), .ok "sent"⟩

/-- A store where user u1 does have a wallet row. -/
def witnessWalletStore : Store :=
  ⟨[⟨"u1", "CWALLET", "SK1"⟩], []⟩

theorem envelope_boundary_witness :
    invokeCore witnessWalletStore "u1" witnessSignFailEnv =
      (.error .signFailed, [.simulate, .signWallet]) ∧
    invokeHandler witnessWalletStore "u1" witnessSignFailEnv =
      (⟨[.errJson .signFailed]⟩, [.simulate, .signWallet]) ∧
    (invokeHandler witnessWalletStore "u1" witnessSignFailEnv).1.content.length = 1 ∧
    findAddress ⟨[], []⟩ "u1" = none ∧
    getWalletHandler ⟨[], []⟩ "u1" = .error .storeRowMissing := by
  refine ⟨rfl, ?_, ?_, rfl, ?_⟩
  · exact (envelope_boundary witnessWalletStore "u1" witnessSignFailEnv
      ⟨fun _ => .ok "CNEW", .ok (), .ok "relayOk"⟩ "Token" "CX" "Tok" "TOK" 1 2).2.1
      .signFailed [.simulate, .signWallet] rfl
  · exact (envelope_boundary witnessWalletStore "u1" witnessSignFailEnv
      ⟨fun _ => .ok "CNEW", .ok (), .ok "relayOk"⟩ "Token" "CX" "Tok" "TOK" 1 2).1
  · exact ((envelope_boundary ⟨[], []⟩ "u1" witnessMutEnv
      ⟨fun _ => .ok "CNEW", .ok (), .ok "relayOk"⟩ "Token" "CX" "Tok" "TOK" 1 2).2.2.2
      rfl).1

/-- C5: the deployment flow hands Client.deploy the six-field constructor
record (owner, name, symbol, decimals, initial supply, cap — decimals fixed
to 0 by the wrapper), is never treated as a read call — the deployer's auth
entries are always signed and the transaction always submitted — and on
success returns the relay outcome together with the newly assigned contract
address read back from the deploy simulation. -/
theorem deployToken_alwaysSubmits (ext : DeployEnv) (owner tname tsym : String)
    (isup icap : Int) (newId res : String)
    (hdep : ext.deploy (deployRequest owner tname tsym isup icap) = .ok newId)
    (hsign : ext.signAuth = .ok ()) (hsend : ext.send = .ok res) :
    deployRequest owner tname tsym isup icap =
      { owner := owner, name := tname, symbol := tsym, decimals := 0,
        initial_supply := isup, cap := icap } ∧
    deployNewFungiblePausableToken ext owner tname tsym isup icap =
      (.ok (res, newId), [.simulateDeploy, .signAuthEntries, .sendTx]) := by
  refine ⟨rfl, ?_⟩
  unfold deployNewFungiblePausableToken
  rw [hdep, hsign, hsend]

/-- A deployment environment where every external step succeeds. -/
def witnessDeployEnv : DeployEnv :=
  ⟨fun _ => .ok "CNEW", .ok (), .ok "relayOk"⟩

theorem deployToken_alwaysSubmits_witness :
    witnessDeployEnv.deploy (deployRequest "GOWNER" "Tok" "TOK" 100 1000) = .ok "CNEW" ∧
    deployNewFungiblePausableToken witnessDeployEnv "GOWNER" "Tok" "TOK" 100 1000 =
      (.ok ("relayOk", "CNEW"), [.simulateDeploy, .signAuthEntries, .sendTx]) := by
  refine ⟨rfl, ?_⟩
  exact (deployToken_alwaysSubmits witnessDeployEnv "GOWNER" "Tok" "TOK" 100 1000
    "CNEW" "relayOk" rfl rfl rfl).2

/-- C10: the store's getAddress throws whenever the user has no wallet row
(its query must return exactly one row), so getWallet and setContractAddress —
which have no catch — end in that thrown exception; when a row does exist the
handlers always take their success branch, so the "No wallet address set"
replies of both tools are unreachable. -/
theorem getAddress_throw_unreachable (store : Store) (login cname caddr : String) :
    (findAddress store login = none →
      getWalletHandler store login = .error .storeRowMissing ∧
      setContractAddressHandler store login cname caddr = .error .storeRowMissing) ∧
    (∀ r, findAddress store login = some r →
      getWalletHandler store login = .ok ⟨[.walletIs r.address]⟩) ∧
    getWalletHandler store login ≠ .ok ⟨[.noWalletSet]⟩ ∧
    (∀ st, setContractAddressHandler store login cname caddr ≠
      .ok (⟨[.noWalletSet]⟩, st)) := by
  refine ⟨fun hnow => ?_, fun r hr => ?_, ?_, fun st => ?_⟩
  · have hga : getAddress store login = .error .storeRowMissing := by
      unfold getAddress; rw [hnow]
    constructor
    · unfold getWalletHandler; rw [hga]
    · unfold setContractAddressHandler; rw [hga]
  · have hga : getAddress store login = .ok (r.address, r.sk) := by
      unfold getAddress; rw [hr]
    unfold getWalletHandler
    rw [hga]
    simp
  · cases hF : findAddress store login with
    | none =>
      have hga : getAddress store login = .error .storeRowMissing := by
        unfold getAddress; rw [hF]
      unfold getWalletHandler
      rw [hga]
      simp
    | some r =>
      have hga : getAddress store login = .ok (r.address, r.sk) := by
        unfold getAddress; rw [hF]
      unfold getWalletHandler
      rw [hga]
      simp
  · cases hF : findAddress store login with
    | none =>
      have hga : getAddress store login = .error .storeRowMissing := by
        unfold getAddress; rw [hF]
      unfold setContractAddressHandler
      rw [hga]
      simp
    | some r =>
      have hga : getAddress store login = .ok (r.address, r.sk) := by
        unfold getAddress; rw [hF]
      unfold setContractAddressHandler
      rw [hga]
      simp [jsTruthyPair]

theorem getAddress_throw_unreachable_witness :
    findAddress ⟨[], []⟩ "u1" = none ∧
    getWalletHandler ⟨[], []⟩ "u1" = .error .storeRowMissing ∧
    setContractAddressHandler ⟨[], []⟩ "u1" "Token" "CX" = .error .storeRowMissing := by
  have h := (getAddress_throw_unreachable ⟨[], []⟩ "u1" "Token" "CX").1 rfl
  exact ⟨rfl, h.1, h.2⟩

end StellarMCP
